import Mathlib

/-!
Verification of the audiotools data-loading layer
(`audiotools/data/datasets.py`): the shared-attribute dataset
(`BaseDataset`), its `collate` static method, and the two resumable
samplers (`ResumableSequentialSampler`, `ResumableDistributedSampler`).

The Python code is shallowly embedded: the process-shared `Manager().dict()`
becomes an explicit association-list store threaded through the attribute
operations (two dataset copies "sharing" a store is modelled by using the
same store value for both); Python attribute errors become an explicit
error type; the Python generators in the samplers' `__iter__` become both
a list-valued traversal function and a small-step generator model that
records when the trailing `self.start_idx = 0` assignment runs.
-/

/-! ## Shared-key dataset (`BaseDataset`) -/

/-- The statically declared shared keys, verbatim from the module:
`SHARED_KEYS = ["duration", "transform", "sample_rate"]`. -/
def SHARED_KEYS : List String := ["duration", "transform", "sample_rate"]

/-- A string-keyed mapping, used both for the process-shared
`Manager().dict()` and for an object's ordinary `__dict__`. -/
abbrev Store (α : Type) := List (String × α)

/-- Mapping update, `d[k] = v`: overwrite the existing binding for `k`
or append a fresh one. -/
def storeSet {α : Type} : Store α → String → α → Store α
  | [], k, v => [(k, v)]
  | (k', v') :: rest, k, v =>
      if k' = k then (k, v) :: rest else (k', v') :: storeSet rest k v

/-- Mapping read, `d[k]`, as an `Option`. -/
def storeGet {α : Type} (st : Store α) (k : String) : Option α :=
  st.lookup k

/-- The two failure kinds of attribute access: `KeyError` from
`self.shared_dict[name]` on an absent shared key, and `AttributeError`
from ordinary `__getattribute__` on an absent local attribute. -/
inductive AttrError where
  | keyNotFound
  | attributeNotFound
deriving DecidableEq

/-- `BaseDataset.__getattribute__`: a name in `SHARED_KEYS` is read from
the shared dict (failing with `KeyError` when absent); any other name is
read from the object's process-local state (failing with
`AttributeError` when absent). `locals_` is the process-local attribute
state, `shared` the store backing `self.shared_dict`. -/
def dsGetattribute {α : Type} (locals_ : Store α) (shared : Store α)
    (name : String) : Except AttrError α :=
  if name ∈ SHARED_KEYS then
    match storeGet shared name with
    | some v => .ok v
    | none => .error .keyNotFound
  else
    match storeGet locals_ name with
    | some v => .ok v
    | none => .error .attributeNotFound

/-- `BaseDataset.__setattr__`: a name in `SHARED_KEYS` is written into the
shared dict; any other name becomes an ordinary process-local attribute.
Returns the updated (local state, shared store) pair. -/
def dsSetattr {α : Type} (locals_ : Store α) (shared : Store α)
    (name : String) (v : α) : Store α × Store α :=
  if name ∈ SHARED_KEYS then (locals_, storeSet shared name v)
  else (storeSet locals_ name v, shared)

/-- `BaseDataset.__init__(length, **kwargs)`: sets `self.length` (a
non-shared name, hence process-local), creates a fresh shared dict, and
copies into it exactly those `kwargs` pairs whose key is in
`SHARED_KEYS`; the remaining pairs are not stored anywhere. The
`self.shared_dict` attribute itself is modelled as the second component
of the result rather than as an entry of the local state. Returns
(process-local attributes, shared store). -/
def initDataset {α : Type} (dataset_length : α) (kwargs : List (String × α)) :
    Store α × Store α :=
  let locals0 : Store α := storeSet [] "length" dataset_length
  let shared : Store α :=
    kwargs.foldl
      (fun st kv => if kv.1 ∈ SHARED_KEYS then storeSet st kv.1 kv.2 else st)
      []
  (locals0, shared)

/-! ## Resumable samplers

Both `__iter__` bodies are the same loop
`for i, idx in enumerate(super().__iter__()): if i >= self.start_idx: yield idx`
followed by `self.start_idx = 0`.  `resumableEmit` is the list of yielded
positions for one traversal of a given underlying order; the sampler
records the new `start_idx` (0) alongside.  `start_idx` is a Python
integer, so it is embedded as `Int`. -/

/-- Positions yielded by one traversal: enumerate the underlying order and
keep the entries whose enumeration index `i` satisfies
`i >= self.start_idx`. -/
def resumableEmit (order : List Nat) (start_idx : Int) : List Nat :=
  ((order.enum.filter fun p => decide (start_idx ≤ (p.1 : Int)))).map Prod.snd

/-- `ResumableSequentialSampler` state: the dataset length (the underlying
`SequentialSampler` iterates `range(len(dataset))`) and the mutable
`start_idx` field. -/
structure ResumableSequentialSampler where
  n : Nat
  start_idx : Int
deriving DecidableEq

/-- `ResumableSequentialSampler.__init__(dataset, start_idx=None)`:
`self.start_idx = start_idx if start_idx is not None else 0`.  No
validation of any kind is performed. -/
def seqInit (dataset_len : Nat) (start_idx : Option Int) :
    ResumableSequentialSampler :=
  { n := dataset_len, start_idx := start_idx.getD 0 }

/-- One complete run of `ResumableSequentialSampler.__iter__`: the yielded
positions (the enumerate/skip loop over `range(n)`) together with the
sampler as left after the trailing `self.start_idx = 0`. -/
def seqIter (s : ResumableSequentialSampler) :
    List Nat × ResumableSequentialSampler :=
  (resumableEmit (List.range s.n) s.start_idx, { s with start_idx := 0 })

/-- `ResumableDistributedSampler` state: `num_replicas` (from the wrapped
torch `DistributedSampler`, always positive) and the mutable `start_idx`
field. -/
structure ResumableDistributedSampler where
  num_replicas : Nat
  start_idx : Int
deriving DecidableEq

/-- `ResumableDistributedSampler.__init__(dataset, start_idx=None, ...)`:
`self.start_idx = start_idx // self.num_replicas if start_idx is not None
else 0`.  Python `//` is floor division, i.e. `Int.fdiv`.  No validation
of any kind is performed. -/
def distInit (num_replicas : Nat) (start_idx : Option Int) :
    ResumableDistributedSampler :=
  { num_replicas := num_replicas,
    start_idx :=
      match start_idx with
      | some g => Int.fdiv g (num_replicas : Int)
      | none => 0 }

/-- One complete run of `ResumableDistributedSampler.__iter__`.  The
wrapped `DistributedSampler.__iter__` produces this replica's local order
for the current epoch (a possibly re-shuffled shard); it is passed in as
`localOrder` since it is an external torch collaborator. -/
def distIter (s : ResumableDistributedSampler) (localOrder : List Nat) :
    List Nat × ResumableDistributedSampler :=
  (resumableEmit localOrder s.start_idx, { s with start_idx := 0 })

/-! ## Small-step generator model

`__iter__` is a generator: the trailing `self.start_idx = 0` runs only
when the generator frame is resumed past the loop, i.e. on the `next()`
call that observes `StopIteration`.  A generator state is the remaining
enumerated pairs together with the sampler's live `start_idx` field. -/

/-- One `next()` call on the suspended generator: scan the remaining
enumerated pairs for the next one passing `i >= self.start_idx`, yielding
it; when the loop exhausts the pairs instead, execute
`self.start_idx = 0` and signal `StopIteration` (`none`). -/
def genNext : List (Nat × Nat) × Int → Option Nat × (List (Nat × Nat) × Int)
  | ([], _) => (none, ([], 0))
  | ((i, idx) :: rest, s) =>
      if s ≤ (i : Int) then (some idx, (rest, s)) else genNext (rest, s)

/-- A consumer performing `k` successive `next()` calls and discarding
the yielded values. -/
def genConsume : List (Nat × Nat) × Int → Nat → List (Nat × Nat) × Int
  | g, 0 => g
  | g, k + 1 => genConsume (genNext g).2 k

/-- The generator state at the moment `__iter__` is entered: the whole
enumerated underlying order is pending and `start_idx` is unchanged. -/
def genStart (order : List Nat) (start_idx : Int) : List (Nat × Nat) × Int :=
  (order.enum, start_idx)

/-! ## Collation (`BaseDataset.collate`)

`AudioSignal` (from `audiotools.core`) and torch's `default_collate` are
collaborators outside this module; they are modelled from the spec where
noted.  An item value is either an audio signal (with its native sample
list) or a plain scalar. -/

/-- A value stored in an item record: an audio-signal object carrying its
native samples, or a non-signal scalar. -/
inductive ItemValue where
  | signal (samples : List Int)
  | scalar (x : Int)
deriving DecidableEq

/-- `isinstance(s, AudioSignal)`. -/
def isSignal : ItemValue → Bool
  | .signal _ => true
  | .scalar _ => false

/-- The native samples of a signal value (junk `[]` on a scalar; only
applied under an all-signals guard). -/
def signalSamples : ItemValue → List Int
  | .signal s => s
  | .scalar _ => []

/-- A batched signal: the per-item sample lists after padding, and whether
`loudness()` has been computed on the batch. -/
structure SignalBatch where
  data : List (List Int)
  loudness_computed : Bool
deriving DecidableEq

/-- Modelled from the spec: `AudioSignal.batch(v, pad_signals=True)`
followed by `batch[k].loudness()`.  `AudioSignal` is repository code not
under `src/`; per the spec the signals are "batched with padding to equal
length" — each signal is padded (with zeros) to the maximum native length
— "and a derived per-batch loudness is computed". -/
def audioSignalBatch (sigs : List (List Int)) : SignalBatch :=
  let maxLen := sigs.foldr (fun s m => max s.length m) 0
  { data := sigs.map fun s => s ++ List.replicate (maxLen - s.length) 0,
    loudness_computed := true }

/-- Modelled from the spec: torch's generic `default_collate`, an external
collaborator, performs "generic default aggregation (e.g., stacking
numeric arrays)", producing an aggregate of the same count as the input
records with their original order preserved. -/
def default_collate (vs : List ItemValue) : List ItemValue := vs

/-- One entry of the returned batch dictionary. -/
inductive BatchEntry where
  | signals (b : SignalBatch)
  | collated (vs : List ItemValue)
deriving DecidableEq

/-- An item record, `Mapping[str, Any]`. -/
abbrev Record := List (String × ItemValue)

/-- The inner comprehension `[dic[k] for dic in list_of_dicts]`: the
values of field `k` across all records, in record order; `none` when some
record lacks the key (Python `KeyError`). -/
def collectField : List Record → String → Option (List ItemValue)
  | [], _ => some []
  | d :: ds, k =>
      match d.lookup k, collectField ds k with
      | some v, some vs => some (v :: vs)
      | _, _ => none

/-- The per-field branch of the `for k, v in dict_of_lists.items()` loop:
if every value is an `AudioSignal`, batch them with padding and compute
loudness; otherwise fall back to torch's `default_collate`. -/
def collateField (vs : List ItemValue) : BatchEntry :=
  if vs.all isSignal then .signals (audioSignalBatch (vs.map signalSamples))
  else .collated (default_collate vs)

/-- The outer dict comprehension and batch loop, over the keys of the
first record (`for k in list_of_dicts[0]`). -/
def collateKeys (lod : List Record) : List String → Option (List (String × BatchEntry))
  | [] => some []
  | k :: ks =>
      match collectField lod k, collateKeys lod ks with
      | some vs, some rest => some ((k, collateField vs) :: rest)
      | _, _ => none

/-- `BaseDataset.collate(list_of_dicts)`: on an empty list
`list_of_dicts[0]` raises (`none`); otherwise build the batch dictionary
keyed by the first record's fields. -/
def collate (lod : List Record) : Option (List (String × BatchEntry)) :=
  match lod with
  | [] => none
  | first :: _ => collateKeys lod (first.map Prod.fst)

/-! ## Helper lemmas -/

/-- The enumerate/skip loop over a list enumerated from `j` keeps exactly
the suffix from (integer) position `k` on. -/
theorem filterSkip_enumFrom {α : Type} (l : List α) (j : Nat) (k : Int) :
    ((List.enumFrom j l).filter fun p => decide (k ≤ (p.1 : Int))).map Prod.snd
      = l.drop (k - (j : Int)).toNat := by
  induction l generalizing j with
  | nil => simp
  | cons a t ih =>
    rw [List.enumFrom_cons, List.filter_cons]
    by_cases h : k ≤ (j : Int)
    · have h0 : (k - (j : Int)).toNat = 0 := by omega
      have h1 : (k - ((j : Int) + 1)).toNat = 0 := by omega
      have h2 := ih (j + 1)
      push_cast at h2
      rw [h1, List.drop_zero] at h2
      simp [h, h2, h0]
    · have h1 : (k - (j : Int)).toNat = (k - ((j : Int) + 1)).toNat + 1 := by omega
      have h2 := ih (j + 1)
      push_cast at h2
      simp [h, h2, h1]

/-- One traversal of the skip loop yields the underlying order with its
first `start_idx` positions dropped (all of it when `start_idx ≤ 0`). -/
theorem resumableEmit_eq_drop (order : List Nat) (s : Int) :
    resumableEmit order s = order.drop s.toNat := by
  have h := filterSkip_enumFrom order 0 s
  simpa [resumableEmit, List.enum] using h

/-- Dropping a prefix of `range n` leaves `range' s (n - s)`. -/
theorem drop_range_eq (n s : Nat) :
    (List.range n).drop s = List.range' s (n - s) := by
  apply List.ext_getElem
  · simp
  · intro i h1 h2
    simp [List.getElem_drop, List.getElem_range, List.getElem_range']

/-- Reading back the key just written returns the written value. -/
theorem storeGet_storeSet_self {α : Type} (st : Store α) (k : String) (v : α) :
    storeGet (storeSet st k v) k = some v := by
  induction st with
  | nil => simp [storeSet, storeGet, List.lookup]
  | cons kv rest ih =>
    obtain ⟨k', v'⟩ := kv
    by_cases h : k' = k
    · simp [storeSet, storeGet, List.lookup, h]
    · simp only [storeSet, if_neg h, storeGet, List.lookup] at *
      have hne : (k == k') = false := by
        simp [Ne.symm h]
      simp [hne, ih]

/-- Writing one key leaves the others unchanged. -/
theorem storeGet_storeSet_ne {α : Type} (st : Store α) (k' : String) (v : α)
    (k : String) (h : k ≠ k') :
    storeGet (storeSet st k' v) k = storeGet st k := by
  have hb : (k == k') = false := by simp [h]
  induction st with
  | nil => simp [storeSet, storeGet, List.lookup, hb]
  | cons kv rest ih =>
    obtain ⟨k0, v0⟩ := kv
    by_cases h0 : k0 = k'
    · subst h0
      simp [storeSet, storeGet, List.lookup, hb]
    · simp only [storeSet, if_neg h0, storeGet, List.lookup] at *
      simp [ih]

/-- Keys not among the constructor kwargs are untouched by the kwargs
copy loop of `__init__`. -/
theorem initDataset_fold_get_of_not_mem {α : Type} (kwargs : List (String × α))
    (st : Store α) (k : String) (hk : k ∉ kwargs.map Prod.fst) :
    storeGet
      (kwargs.foldl
        (fun st kv => if kv.1 ∈ SHARED_KEYS then storeSet st kv.1 kv.2 else st)
        st) k
      = storeGet st k := by
  induction kwargs generalizing st with
  | nil => rfl
  | cons kv rest ih =>
    simp only [List.map_cons, List.mem_cons] at hk
    push_neg at hk
    rw [List.foldl_cons, ih _ hk.2]
    by_cases h : kv.1 ∈ SHARED_KEYS
    · rw [if_pos h, storeGet_storeSet_ne _ _ _ _ hk.1]
    · rw [if_neg h]

/-! ## Claim theorems -/

/-- C2: for every key in the declared shared-key set
{duration, transform, sample_rate} and every value, writing that key on
one dataset copy goes through the shared store (the writer's local state
is untouched) and reading it on any copy that shares the same backing
store — including the writer — returns the written value, so two copies
sharing one store observe the same value for the key. -/
theorem shared_key_write_visible_to_all_copies {α : Type} (name : String)
    (hname : name ∈ SHARED_KEYS) (v : α) (locals1 locals2 shared : Store α) :
    (dsSetattr locals1 shared name v).1 = locals1 ∧
    dsGetattribute locals2 (dsSetattr locals1 shared name v).2 name = .ok v ∧
    dsGetattribute locals1 (dsSetattr locals1 shared name v).2 name = .ok v := by
  simp [dsSetattr, dsGetattribute, hname, storeGet_storeSet_self]

/-- Witness for C2 at `name = "duration"`, `v = 7`, two copies with
distinct local states sharing one (empty) store. -/
theorem shared_key_write_visible_witness :
    ("duration" ∈ SHARED_KEYS) ∧
    ((dsSetattr ([] : Store Nat) [] "duration" 7).1 = [] ∧
     dsGetattribute [("x", 1)] (dsSetattr ([] : Store Nat) [] "duration" 7).2
       "duration" = .ok 7 ∧
     dsGetattribute [] (dsSetattr ([] : Store Nat) [] "duration" 7).2
       "duration" = .ok 7) :=
  ⟨by decide,
   shared_key_write_visible_to_all_copies "duration" (by decide) 7 [] [("x", 1)] []⟩

/-- C3: on a freshly constructed dataset, reading a shared key that was
neither supplied at construction (not among the kwargs keys) nor written
afterwards fails with the key-not-found error; reading a name outside the
shared-key set that was never set (i.e. not `"length"`, and not the
`shared_dict` attribute, which is modelled outside the local store) fails
with the attribute-not-found error; the two error kinds are distinct, and
both reads return errors rather than defaults. -/
theorem unset_shared_and_local_reads_fail {α : Type} (len : α)
    (kwargs : List (String × α)) (k1 k2 : String)
    (h1 : k1 ∈ SHARED_KEYS) (h1k : k1 ∉ kwargs.map Prod.fst)
    (h2 : k2 ∉ SHARED_KEYS) (h2l : k2 ≠ "length") (h2d : k2 ≠ "shared_dict") :
    dsGetattribute (initDataset len kwargs).1 (initDataset len kwargs).2 k1
      = .error .keyNotFound ∧
    dsGetattribute (initDataset len kwargs).1 (initDataset len kwargs).2 k2
      = .error .attributeNotFound ∧
    AttrError.keyNotFound ≠ AttrError.attributeNotFound := by
  refine ⟨?_, ?_, by decide⟩
  · have hg : storeGet (initDataset len kwargs).2 k1 = none := by
      simpa [initDataset] using
        initDataset_fold_get_of_not_mem kwargs [] k1 h1k
    simp [dsGetattribute, h1, hg]
  · have hb : (k2 == "length") = false := by simp [h2l]
    simp [dsGetattribute, h2, initDataset, storeGet, storeSet, List.lookup, hb]

/-- Witness for C3 at `len = 5`, `kwargs = [("sample_rate", 44100)]`,
`k1 = "duration"` (shared, unsupplied), `k2 = "mono"` (non-shared,
never set). -/
theorem unset_reads_fail_witness :
    (("duration" ∈ SHARED_KEYS) ∧
     ("duration" ∉ ([("sample_rate", (44100 : Nat))].map Prod.fst)) ∧
     ("mono" ∉ SHARED_KEYS) ∧ ("mono" ≠ "length") ∧ ("mono" ≠ "shared_dict")) ∧
    (dsGetattribute (initDataset (5 : Nat) [("sample_rate", 44100)]).1
        (initDataset (5 : Nat) [("sample_rate", 44100)]).2 "duration"
        = .error .keyNotFound ∧
     dsGetattribute (initDataset (5 : Nat) [("sample_rate", 44100)]).1
        (initDataset (5 : Nat) [("sample_rate", 44100)]).2 "mono"
        = .error .attributeNotFound ∧
     AttrError.keyNotFound ≠ AttrError.attributeNotFound) :=
  ⟨⟨by decide, by decide, by decide, by decide, by decide⟩,
   unset_shared_and_local_reads_fail 5 [("sample_rate", 44100)] "duration" "mono"
     (by decide) (by decide) (by decide) (by decide) (by decide)⟩

/-- C9: a constructor kwarg whose key is outside the shared-key set is
silently discarded: the constructed state (local attributes and shared
store alike) is identical to the one built without that pair, and a
subsequent read of that name (provided it is not the always-present
`"length"` local attribute or the `shared_dict` attribute itself) fails
with the attribute-not-found error, exactly as if the pair had never been
supplied. -/
theorem non_shared_kwarg_silently_discarded {α : Type} (len : α)
    (pre post : List (String × α)) (k : String) (v : α)
    (hk : k ∉ SHARED_KEYS) (hkl : k ≠ "length") (hkd : k ≠ "shared_dict") :
    initDataset len (pre ++ (k, v) :: post) = initDataset len (pre ++ post) ∧
    dsGetattribute (initDataset len (pre ++ (k, v) :: post)).1
        (initDataset len (pre ++ (k, v) :: post)).2 k
      = .error .attributeNotFound := by
  constructor
  · simp [initDataset, List.foldl_append, hk]
  · have hb : (k == "length") = false := by simp [hkl]
    simp [dsGetattribute, hk, initDataset, storeGet, storeSet, List.lookup, hb]

/-- Witness for C9 at `len = 3`, kwargs
`[("duration", 2), ("loudness", 9)]` with the non-shared pair
`("loudness", 9)` in last position. -/
theorem non_shared_kwarg_discarded_witness :
    (("loudness" ∉ SHARED_KEYS) ∧ ("loudness" ≠ "length") ∧
     ("loudness" ≠ "shared_dict")) ∧
    (initDataset (3 : Nat) ([("duration", 2)] ++ ("loudness", 9) :: [])
       = initDataset (3 : Nat) ([("duration", 2)] ++ []) ∧
     dsGetattribute
        (initDataset (3 : Nat) ([("duration", 2)] ++ ("loudness", 9) :: [])).1
        (initDataset (3 : Nat) ([("duration", 2)] ++ ("loudness", 9) :: [])).2
        "loudness"
       = .error .attributeNotFound) :=
  ⟨⟨by decide, by decide, by decide⟩,
   non_shared_kwarg_silently_discarded 3 [("duration", 2)] [] "loudness" 9
     (by decide) (by decide) (by decide)⟩

/-- Floor division of naturals embedded in `Int` is natural division. -/
theorem fdiv_natCast_eq (g r : Nat) :
    Int.fdiv (g : Int) (r : Int) = ((g / r : Nat) : Int) := by
  rw [Int.fdiv_eq_tdiv (by positivity) (by positivity)]
  exact (Int.ofNat_tdiv g r).symm

/-- C1: the sequential resumable sampler over a dataset of size `n`,
constructed with `start_index = s` where `0 ≤ s ≤ n`, yields exactly the
positions `s, s+1, ..., n-1` in increasing order on its first traversal;
after that traversal completes, every subsequent traversal yields the
full sequence `0, ..., n-1` (with `s = 0` this already holds for the
first traversal, since `range' 0 n = range n`). -/
theorem sequential_resume_then_full (n s : Nat) (hs : s ≤ n) :
    (seqIter (seqInit n (some (s : Int)))).1 = List.range' s (n - s) ∧
    (seqIter (seqIter (seqInit n (some (s : Int)))).2).1 = List.range n := by
  have ht : ((s : Int)).toNat = s := by omega
  constructor
  · simp [seqIter, seqInit, resumableEmit_eq_drop, ht, drop_range_eq]
  · simp [seqIter, seqInit, resumableEmit_eq_drop]

/-- Witness for C1 at `n = 10`, `s = 4`: first traversal
`[4, 5, 6, 7, 8, 9]`, second traversal `[0, ..., 9]`. -/
theorem sequential_resume_witness :
    (4 ≤ 10) ∧
    ((seqIter (seqInit 10 (some ((4 : Nat) : Int)))).1 = List.range' 4 (10 - 4) ∧
     (seqIter (seqIter (seqInit 10 (some ((4 : Nat) : Int)))).2).1 = List.range 10) :=
  ⟨by decide, sequential_resume_then_full 10 4 (by decide)⟩

/-- C4: the distributed resumable sampler constructed with a non-`None`
global start index `g` and `num_replicas = r > 0` stores the per-replica
start offset `⌊g / r⌋`; in particular `g = 5`, `r = 2` stores `2`; and on
its first traversal each replica skips exactly that many of its own local
positions (whatever its local epoch order is). -/
theorem distributed_start_offset_floor_div (g r : Nat) (hr : 0 < r)
    (localOrder : List Nat) :
    (distInit r (some (g : Int))).start_idx = ((g / r : Nat) : Int) ∧
    (distInit 2 (some 5)).start_idx = 2 ∧
    (distIter (distInit r (some (g : Int))) localOrder).1
      = localOrder.drop (g / r) := by
  refine ⟨by simp [distInit, fdiv_natCast_eq], by decide, ?_⟩
  show resumableEmit localOrder (distInit r (some (g : Int))).start_idx
    = localOrder.drop (g / r)
  rw [distInit, fdiv_natCast_eq, resumableEmit_eq_drop, Int.toNat_natCast]

/-- Witness for C4 at `g = 5`, `r = 2`, local order `[0, 2, 4, 6, 8]`:
stored offset `2`, first traversal `[4, 6, 8]`. -/
theorem distributed_start_offset_witness :
    (0 < 2) ∧
    ((distInit 2 (some ((5 : Nat) : Int))).start_idx = (((5 / 2 : Nat)) : Int) ∧
     (distInit 2 (some 5)).start_idx = 2 ∧
     (distIter (distInit 2 (some ((5 : Nat) : Int))) [0, 2, 4, 6, 8]).1
       = [0, 2, 4, 6, 8].drop (5 / 2)) :=
  ⟨by decide, distributed_start_offset_floor_div 5 2 (by decide) [0, 2, 4, 6, 8]⟩

/-- C5: for both variants, a stored start index at least the length of
the underlying order gives an empty first traversal — and no error, both
iteration functions being total — after which the stored start index is
`0` and the next traversal yields that epoch's full order. -/
theorem start_beyond_length_empty_then_full (n : Nat) (s : Int)
    (hs : (n : Int) ≤ s) (d : ResumableDistributedSampler)
    (ord ord2 : List Nat) (hd : (ord.length : Int) ≤ d.start_idx) :
    (seqIter (seqInit n (some s))).1 = [] ∧
    (seqIter (seqInit n (some s))).2.start_idx = 0 ∧
    (seqIter (seqIter (seqInit n (some s))).2).1 = List.range n ∧
    (distIter d ord).1 = [] ∧
    (distIter d ord).2.start_idx = 0 ∧
    (distIter (distIter d ord).2 ord2).1 = ord2 := by
  refine ⟨?_, rfl, ?_, ?_, rfl, ?_⟩
  · rw [seqIter, seqInit]
    simp only [resumableEmit_eq_drop]
    exact List.drop_eq_nil_of_le (by simp; omega)
  · simp [seqIter, seqInit, resumableEmit_eq_drop]
  · rw [distIter]
    simp only [resumableEmit_eq_drop]
    exact List.drop_eq_nil_of_le (by omega)
  · simp [distIter, resumableEmit_eq_drop]

/-- Witness for C5 at `n = 3`, `s = 5`, and a distributed sampler with
stored offset `5` over the length-2 local order `[0, 1]`. -/
theorem start_beyond_length_witness :
    (((3 : Nat) : Int) ≤ 5 ∧
     (([0, 1] : List Nat).length : Int) ≤
       (ResumableDistributedSampler.mk 2 5).start_idx) ∧
    ((seqIter (seqInit 3 (some 5))).1 = [] ∧
     (seqIter (seqInit 3 (some 5))).2.start_idx = 0 ∧
     (seqIter (seqIter (seqInit 3 (some 5))).2).1 = List.range 3 ∧
     (distIter (ResumableDistributedSampler.mk 2 5) [0, 1]).1 = [] ∧
     (distIter (ResumableDistributedSampler.mk 2 5) [0, 1]).2.start_idx = 0 ∧
     (distIter (distIter (ResumableDistributedSampler.mk 2 5) [0, 1]).2 [1, 0]).1
       = [1, 0]) :=
  ⟨⟨by decide, by decide⟩,
   start_beyond_length_empty_then_full 3 5 (by decide)
     (ResumableDistributedSampler.mk 2 5) [0, 1] [1, 0] (by decide)⟩

/-- C6 (counterexample): construction rejects nothing.  With a dataset of
size 10, `start_idx = -1` and `start_idx = 11` are both accepted — the
constructors are total functions that simply store the value — no
invalid-argument error exists anywhere in the code path; `-1` then yields
the full order and `11` an empty first traversal. -/
theorem construction_accepts_out_of_range_start :
    (seqInit 10 (some (-1))).start_idx = -1 ∧
    (seqIter (seqInit 10 (some (-1)))).1 = List.range 10 ∧
    (seqInit 10 (some 11)).start_idx = 11 ∧
    (seqIter (seqInit 10 (some 11))).1 = [] ∧
    (distInit 2 (some (-1))).start_idx = -1 ∧
    (distInit 2 (some 22)).start_idx = 11 := by decide

/-- C6 (amended): constructing a resumable sampler (either variant) with
any start index — including `-1` and values exceeding the dataset size —
succeeds with no validation and no error: the value is stored as given
(floor-divided by `num_replicas` in the distributed variant), a negative
start index behaves like `0` (full first traversal), and a start index
beyond the order's length gives an empty first traversal. -/
theorem construction_unvalidated_total (n : Nat) (s : Int) (r : Nat) :
    (seqInit n (some s)).start_idx = s ∧
    (seqIter (seqInit n (some s))).1 = (List.range n).drop s.toNat ∧
    (distInit r (some s)).start_idx = Int.fdiv s (r : Int) := by
  refine ⟨rfl, ?_, rfl⟩
  simp [seqIter, seqInit, resumableEmit_eq_drop]

/-- C7: for both variants, the first (resumed) traversal is exactly the
full epoch order with its first `start_idx` positions removed — an
order-preserving suffix, as witnessed by re-appending the dropped prefix
— and any later traversal's output equals that epoch's base order alone,
with no dependence on the start index or on what was consumed before. -/
theorem resumed_epoch_suffix_later_epochs_independent (n : Nat) (s : Int)
    (d : ResumableDistributedSampler) (ord1 ord2 : List Nat) :
    (seqIter (ResumableSequentialSampler.mk n s)).1
      = (List.range n).drop s.toNat ∧
    List.take s.toNat (List.range n)
        ++ (seqIter (ResumableSequentialSampler.mk n s)).1
      = List.range n ∧
    (seqIter (seqIter (ResumableSequentialSampler.mk n s)).2).1
      = List.range n ∧
    (distIter d ord1).1 = ord1.drop d.start_idx.toNat ∧
    List.take d.start_idx.toNat ord1 ++ (distIter d ord1).1 = ord1 ∧
    (distIter (distIter d ord1).2 ord2).1 = ord2 := by
  refine ⟨?_, ?_, ?_, ?_, ?_, ?_⟩
  · simp [seqIter, resumableEmit_eq_drop]
  · simp [seqIter, resumableEmit_eq_drop, List.take_append_drop]
  · simp [seqIter, resumableEmit_eq_drop]
  · simp [distIter, resumableEmit_eq_drop]
  · simp [distIter, resumableEmit_eq_drop, List.take_append_drop]
  · simp [distIter, resumableEmit_eq_drop]

/-- With no yieldable pair left pending, the next `next()` call runs the
loop to its end, executes `self.start_idx = 0`, and stops. -/
theorem genNext_of_filter_nil (s : Int) (ps : List (Nat × Nat))
    (h : (ps.filter fun p => decide (s ≤ (p.1 : Int))).length = 0) :
    genNext (ps, s) = (none, ([], 0)) := by
  induction ps with
  | nil => simp [genNext]
  | cons p rest ih =>
    obtain ⟨i, idx⟩ := p
    rw [List.filter_cons] at h
    by_cases hc : s ≤ (i : Int)
    · simp [hc] at h
    · simp only [genNext, hc, if_false]
      exact ih (by simpa [hc] using h)

/-- With at least one yieldable pair pending, the next `next()` call
yields a value, leaves `start_idx` untouched, and decreases the count of
yieldable pairs by one. -/
theorem genNext_of_filter_pos (s : Int) (ps : List (Nat × Nat))
    (h : 0 < (ps.filter fun p => decide (s ≤ (p.1 : Int))).length) :
    ∃ v ps', genNext (ps, s) = (some v, (ps', s)) ∧
      (ps'.filter fun p => decide (s ≤ (p.1 : Int))).length
        = (ps.filter fun p => decide (s ≤ (p.1 : Int))).length - 1 := by
  induction ps with
  | nil => simp at h
  | cons p rest ih =>
    obtain ⟨i, idx⟩ := p
    by_cases hc : s ≤ (i : Int)
    · refine ⟨idx, rest, by simp [genNext, hc], ?_⟩
      rw [List.filter_cons]
      simp [hc]
    · rw [List.filter_cons] at h
      have h' : 0 < (rest.filter fun p => decide (s ≤ (p.1 : Int))).length := by
        simpa [hc] using h
      obtain ⟨v, ps', h1, h2⟩ := ih h'
      refine ⟨v, ps', by simp [genNext, hc, h1], ?_⟩
      rw [List.filter_cons]
      simp [hc, h2]

/-- Consuming no more `next()` calls than there are yieldable pairs
leaves the sampler's `start_idx` field untouched and accounts for the
pairs consumed. -/
theorem genConsume_store_of_le (s : Int) :
    ∀ (k : Nat) (ps : List (Nat × Nat)),
      k ≤ (ps.filter fun p => decide (s ≤ (p.1 : Int))).length →
      (genConsume (ps, s) k).2 = s ∧
      ((genConsume (ps, s) k).1.filter fun p => decide (s ≤ (p.1 : Int))).length
        = (ps.filter fun p => decide (s ≤ (p.1 : Int))).length - k := by
  intro k
  induction k with
  | zero => intro ps _; exact ⟨rfl, by simp [genConsume]⟩
  | succ k ih =>
    intro ps h
    have hpos : 0 < (ps.filter fun p => decide (s ≤ (p.1 : Int))).length := by
      omega
    obtain ⟨v, ps', h1, h2⟩ := genNext_of_filter_pos s ps hpos
    have hstep : genConsume (ps, s) (k + 1) = genConsume (ps', s) k := by
      show genConsume (genNext (ps, s)).2 k = genConsume (ps', s) k
      rw [h1]
    rw [hstep]
    obtain ⟨ha, hb⟩ := ih ps' (by omega)
    exact ⟨ha, by rw [hb]; omega⟩

/-- Splitting a consumption run. -/
theorem genConsume_add (g : List (Nat × Nat) × Int) (a b : Nat) :
    genConsume g (a + b) = genConsume (genConsume g a) b := by
  induction a generalizing g with
  | zero => simp [genConsume, Nat.zero_add]
  | succ a ih =>
    rw [Nat.succ_add]
    show genConsume (genNext g).2 (a + b) = genConsume (genConsume g (a + 1)) b
    rw [ih]
    rfl

/-- Running one `next()` call past the yielded sequence — the call that
observes `StopIteration` — executes the trailing `self.start_idx = 0`. -/
theorem genConsume_exhausted (order : List Nat) (s : Int) :
    (genConsume (genStart order s) ((resumableEmit order s).length + 1)).2
      = 0 := by
  have hlen : (resumableEmit order s).length
      = ((order.enum.filter fun p => decide (s ≤ (p.1 : Int))).length) := by
    simp [resumableEmit]
  rw [hlen, genStart, genConsume_add]
  obtain ⟨h1, h2⟩ := genConsume_store_of_le s
    ((order.enum.filter fun p => decide (s ≤ (p.1 : Int))).length)
    order.enum le_rfl
  set X := genConsume (order.enum, s)
    ((order.enum.filter fun p => decide (s ≤ (p.1 : Int))).length) with hXdef
  have h2' : (X.1.filter fun p => decide (s ≤ (p.1 : Int))).length = 0 := by
    rw [h2]
    omega
  have hXs : X = (X.1, s) := by
    rw [← h1]
  show (genNext X).2.2 = 0
  rw [hXs, genNext_of_filter_nil s X.1 h2']

/-- C10: for both sampler variants (whose `__iter__` bodies are the same
generator over their respective underlying orders), the stored start index
is reset to `0` only when a traversal is consumed to exhaustion: a
consumer that stops after any number of `next()` calls not exceeding the
emitted sequence's length leaves `start_idx` at its current value — so a
subsequent traversal applies the same prefix skip again — while the
additional call observing `StopIteration` resets it to `0`, after which a
traversal emits the full order. -/
theorem start_idx_reset_only_on_exhaustion (order : List Nat) (s : Int)
    (k : Nat) (hk : k ≤ (resumableEmit order s).length) :
    (genConsume (genStart order s) k).2 = s ∧
    resumableEmit order (genConsume (genStart order s) k).2
      = resumableEmit order s ∧
    (genConsume (genStart order s) ((resumableEmit order s).length + 1)).2
      = 0 ∧
    resumableEmit order (0 : Int) = order := by
  have hk' : k ≤ (order.enum.filter fun p => decide (s ≤ (p.1 : Int))).length := by
    simpa [resumableEmit] using hk
  have h1 := (genConsume_store_of_le s k order.enum hk').1
  refine ⟨h1, by rw [show (genConsume (genStart order s) k).2 = s from h1],
    genConsume_exhausted order s, ?_⟩
  rw [resumableEmit_eq_drop]
  simp

/-- Witness for C10 over the order `[3, 4, 5]` with `start_idx = 1`:
the traversal emits `[4, 5]`; after consuming 1 of its 2 elements the
stored index is still `1`, and only the third `next()` call (the one past
the end) resets it to `0`. -/
theorem start_idx_reset_witness :
    (1 ≤ (resumableEmit [3, 4, 5] 1).length) ∧
    ((genConsume (genStart [3, 4, 5] 1) 1).2 = 1 ∧
     resumableEmit [3, 4, 5] (genConsume (genStart [3, 4, 5] 1) 1).2
       = resumableEmit [3, 4, 5] 1 ∧
     (genConsume (genStart [3, 4, 5] 1) ((resumableEmit [3, 4, 5] 1).length + 1)).2
       = 0 ∧
     resumableEmit [3, 4, 5] (0 : Int) = [3, 4, 5]) :=
  ⟨by decide, start_idx_reset_only_on_exhaustion [3, 4, 5] 1 1 (by decide)⟩

/-- `collectField` produces one value per input record. -/
theorem collectField_length (lod : List Record) (k : String) :
    ∀ vs, collectField lod k = some vs → vs.length = lod.length := by
  induction lod with
  | nil =>
    intro vs h
    simp only [collectField, Option.some.injEq] at h
    simp [← h]
  | cons d ds ih =>
    intro vs h
    simp only [collectField] at h
    cases hl : d.lookup k with
    | none => rw [hl] at h; simp at h
    | some v =>
      cases hc : collectField ds k with
      | none => rw [hl, hc] at h; simp at h
      | some vs' =>
        rw [hl, hc] at h
        simp only [Option.some.injEq] at h
        simp [← h, ih vs' hc]

/-- Every signal's native length is bounded by the folded maximum. -/
theorem length_le_foldr_max (sigs : List (List Int)) (s : List Int)
    (hs : s ∈ sigs) :
    s.length ≤ sigs.foldr (fun s m => max s.length m) 0 := by
  induction sigs with
  | nil => simp at hs
  | cons a t ih =>
    rcases List.mem_cons.mp hs with h | h
    · subst h
      simp
    · exact le_trans (ih h) (by simp)

/-- Every padded signal in a batch has length equal to the maximum native
length of the batched signals. -/
theorem audioSignalBatch_padded_length (sigs : List (List Int)) (p : List Int)
    (hp : p ∈ (audioSignalBatch sigs).data) :
    p.length = sigs.foldr (fun s m => max s.length m) 0 := by
  simp only [audioSignalBatch, List.mem_map] at hp
  obtain ⟨s, hs, rfl⟩ := hp
  have hle := length_le_foldr_max sigs s hs
  simp only [List.length_append, List.length_replicate]
  omega

/-- When every listed key collects successfully, the key loop succeeds and
its batch contains each key's collated entry. -/
theorem collateKeys_total (lod : List Record) :
    ∀ (ks : List String), (∀ k ∈ ks, (collectField lod k).isSome) →
      ∃ b, collateKeys lod ks = some b ∧
        ∀ k vs, k ∈ ks → collectField lod k = some vs →
          (k, collateField vs) ∈ b := by
  intro ks
  induction ks with
  | nil => intro _; exact ⟨[], rfl, by simp⟩
  | cons k ks ih =>
    intro hall
    have hk := hall k (by simp)
    obtain ⟨vs, hvs⟩ := Option.isSome_iff_exists.mp hk
    obtain ⟨b, hb, hmem⟩ := ih fun k' hk' => hall k' (by simp [hk'])
    refine ⟨(k, collateField vs) :: b, ?_, ?_⟩
    · simp only [collateKeys]
      rw [hvs, hb]
    · intro k' vs' hk' hvs'
      rcases List.mem_cons.mp hk' with h | h
      · subst h
        rw [hvs] at hvs'
        simp only [Option.some.injEq] at hvs'
        subst hvs'
        exact List.mem_cons_self _ _
      · exact List.mem_cons_of_mem _ (hmem k' vs' h hvs')

/-- C8: `collate` on a non-empty list of same-shaped records (every field
of the first record is collectable across all records) returns a batch in
which each field whose values are all audio signals is batched with
padding to the maximum native length and carries a computed loudness,
while every other field is aggregated by the generic default aggregator
into an aggregate with one entry per input record in original order. -/
theorem collate_signals_batched_rest_aggregated (first : Record)
    (rest : List Record)
    (h : ∀ k ∈ first.map Prod.fst, (collectField (first :: rest) k).isSome) :
    ∃ batch, collate (first :: rest) = some batch ∧
      ∀ k vs, k ∈ first.map Prod.fst →
        collectField (first :: rest) k = some vs →
        (k, collateField vs) ∈ batch ∧
        vs.length = (first :: rest).length ∧
        (vs.all isSignal = true →
          collateField vs = .signals (audioSignalBatch (vs.map signalSamples)) ∧
          (audioSignalBatch (vs.map signalSamples)).loudness_computed = true ∧
          ∀ p ∈ (audioSignalBatch (vs.map signalSamples)).data,
            p.length
              = (vs.map signalSamples).foldr (fun s m => max s.length m) 0) ∧
        (vs.all isSignal = false →
          collateField vs = .collated (default_collate vs) ∧
          default_collate vs = vs) := by
  obtain ⟨b, hb, hmem⟩ := collateKeys_total (first :: rest) (first.map Prod.fst) h
  refine ⟨b, hb, ?_⟩
  intro k vs hk hvs
  refine ⟨hmem k vs hk hvs, collectField_length _ _ _ hvs, ?_, ?_⟩
  · intro hsig
    refine ⟨by simp [collateField, hsig], rfl, ?_⟩
    intro p hp
    exact audioSignalBatch_padded_length _ p hp
  · intro hsig
    exact ⟨by simp [collateField, hsig], rfl⟩

/-- Witness for C8 with three records, each holding a `"signal"` field of
native lengths 1, 2, 3 and a non-signal numeric field `"x"`. -/
theorem collate_witness :
    (∀ k ∈ ([("signal", ItemValue.signal [1]), ("x", ItemValue.scalar 7)]
        : Record).map Prod.fst,
      (collectField
        [[("signal", ItemValue.signal [1]), ("x", ItemValue.scalar 7)],
         [("signal", ItemValue.signal [1, 2]), ("x", ItemValue.scalar 8)],
         [("signal", ItemValue.signal [1, 2, 3]), ("x", ItemValue.scalar 9)]]
        k).isSome) ∧
    (∃ batch,
      collate
        ([("signal", ItemValue.signal [1]), ("x", ItemValue.scalar 7)]
          :: [[("signal", ItemValue.signal [1, 2]), ("x", ItemValue.scalar 8)],
              [("signal", ItemValue.signal [1, 2, 3]), ("x", ItemValue.scalar 9)]])
        = some batch ∧
      ∀ k vs,
        k ∈ ([("signal", ItemValue.signal [1]), ("x", ItemValue.scalar 7)]
          : Record).map Prod.fst →
        collectField
          ([("signal", ItemValue.signal [1]), ("x", ItemValue.scalar 7)]
            :: [[("signal", ItemValue.signal [1, 2]), ("x", ItemValue.scalar 8)],
                [("signal", ItemValue.signal [1, 2, 3]), ("x", ItemValue.scalar 9)]])
          k = some vs →
        (k, collateField vs) ∈ batch ∧
        vs.length
          = (([("signal", ItemValue.signal [1]), ("x", ItemValue.scalar 7)]
            : Record)
            :: [[("signal", ItemValue.signal [1, 2]), ("x", ItemValue.scalar 8)],
                [("signal", ItemValue.signal [1, 2, 3]),
                 ("x", ItemValue.scalar 9)]]).length ∧
        (vs.all isSignal = true →
          collateField vs = .signals (audioSignalBatch (vs.map signalSamples)) ∧
          (audioSignalBatch (vs.map signalSamples)).loudness_computed = true ∧
          ∀ p ∈ (audioSignalBatch (vs.map signalSamples)).data,
            p.length
              = (vs.map signalSamples).foldr (fun s m => max s.length m) 0) ∧
        (vs.all isSignal = false →
          collateField vs = .collated (default_collate vs) ∧
          default_collate vs = vs)) :=
  ⟨by decide,
   collate_signals_batched_rest_aggregated
     [("signal", ItemValue.signal [1]), ("x", ItemValue.scalar 7)]
     [[("signal", ItemValue.signal [1, 2]), ("x", ItemValue.scalar 8)],
      [("signal", ItemValue.signal [1, 2, 3]), ("x", ItemValue.scalar 9)]]
     (by decide)⟩
